/-
Verification of the moltbot-railway-template deployment wrapper.

The development shallowly embeds the control core of the repository:
  * the S3 storage module (class S3Storage: key/path mapping, downloadAll,
    downloadFile, uploadFile, and the initStorage wrapper),
  * the gateway service supervisor (startGateway, restartGateway, the S3
    change poller checkForConfigUpdates),
  * the setup service (resolveGatewayToken, the reverse proxy's
    Authorization header injection, the catch-all HTTP handler and the
    WebSocket upgrade handler).

JavaScript strings are modelled as Lean `String` values (a string is its
list of characters); Node's `path.posix` functions (join, normalize,
relative, dirname) are implemented over character lists following the
algorithms of Node's `path` module.  Filesystem and bucket state are
explicit records, and each operation additionally returns the list of
side-effecting actions it performed, in order.
-/
import Mathlib

set_option autoImplicit false

namespace Moltbot

/-! ## JavaScript string primitives -/

/-- Embedding of JS `String.prototype.startsWith` on character lists. -/
def startsWithCL : List Char → List Char → Bool
  | _, [] => true
  | [], _ :: _ => false
  | c :: cs, p :: ps => c = p && startsWithCL cs ps

/-- Embedding of JS `s.startsWith(p)`. -/
def jsStartsWith (s p : String) : Bool :=
  startsWithCL s.data p.data

/-- Embedding of JS `s.slice(n)` (drop the first `n` UTF-16 units). -/
def jsSliceFrom (s : String) (n : Nat) : String :=
  String.mk (s.data.drop n)

/-- Embedding of JS `s.length`. -/
def jsLength (s : String) : Nat :=
  s.data.length

/-- Embedding of JS `s.endsWith("/")`. -/
def jsEndsWithSlash (s : String) : Bool :=
  match s.data.getLast? with
  | some c => c = '/'
  | none => false

/-- Embedding of JS `s.replace(/\\/g, "/")`: every backslash character is
replaced by a forward slash. -/
def jsReplaceBackslash (s : String) : String :=
  String.mk (s.data.map (fun c => if c = '\\' then '/' else c))

/-- JS whitespace as accepted by the JS string trim method (common cases). -/
def isJsWS (c : Char) : Bool :=
  c = ' ' || c = '\t' || c = '\n' || c = '\r' || c = '\x0b' || c = '\x0c'

/-- Embedding of JS `s.trim()`: strip leading and trailing whitespace. -/
def jsTrim (s : String) : String :=
  String.mk (((s.data.dropWhile isJsWS).reverse.dropWhile isJsWS).reverse)

/-! ## Node `path.posix` model -/

/-- Split a character list at every `'/'` (like `String.split("/")`,
keeping empty pieces). -/
def splitSlash : List Char → List (List Char)
  | [] => [[]]
  | c :: rest =>
    match splitSlash rest with
    | [] => [[c]]
    | s :: ss => if c = '/' then [] :: s :: ss else (c :: s) :: ss

/-- Drop the empty pieces of a split path, leaving its segments. -/
def dropEmpty : List (List Char) → List (List Char)
  | [] => []
  | s :: rest => if s = [] then dropEmpty rest else s :: dropEmpty rest

/-- The nonempty `'/'`-separated segments of a path. -/
def segsOf (l : List Char) : List (List Char) :=
  dropEmpty (splitSlash l)

/-- Node's `normalizeString` segment walk: resolve `"."` and `".."`
segments; in an absolute path a leading `".."` is dropped, in a relative
path it is kept (`allowAboveRoot`). `acc` holds the output so far,
reversed. -/
def normSegsAux (abs : Bool) (acc : List (List Char)) : List (List Char) → List (List Char)
  | [] => acc.reverse
  | s :: rest =>
    if s = ['.'] then normSegsAux abs acc rest
    else if s = ['.', '.'] then
      (match acc with
       | [] => if abs then normSegsAux abs [] rest else normSegsAux abs [s] rest
       | a :: tl => if a = ['.', '.'] then normSegsAux abs (s :: a :: tl) rest
                    else normSegsAux abs tl rest)
    else normSegsAux abs (s :: acc) rest

/-- Join segments with a single `'/'` between consecutive segments. -/
def joinSegs : List (List Char) → List Char
  | [] => []
  | s :: rest =>
    match rest with
    | [] => s
    | _ :: _ => s ++ '/' :: joinSegs rest

/-- Embedding of Node `path.posix.normalize`: resolve `"."`/`".."`,
collapse repeated separators, preserve a single trailing separator. -/
def normalizeStr (p : String) : String :=
  if p.data = [] then "." else
  if p.data.head? = some '/' then
    (if joinSegs (normSegsAux true [] (segsOf p.data)) = [] then "/"
     else if p.data.getLast? = some '/' then
       String.mk ('/' :: joinSegs (normSegsAux true [] (segsOf p.data))) ++ "/"
     else String.mk ('/' :: joinSegs (normSegsAux true [] (segsOf p.data))))
  else
    (if joinSegs (normSegsAux false [] (segsOf p.data)) = [] then
       (if p.data.getLast? = some '/' then "./" else ".")
     else if p.data.getLast? = some '/' then
       String.mk (joinSegs (normSegsAux false [] (segsOf p.data))) ++ "/"
     else String.mk (joinSegs (normSegsAux false [] (segsOf p.data))))

/-- Embedding of Node `path.posix.join`: drop empty arguments, join the
rest with `'/'`, normalize; with no nonempty argument the result is
`"."`. -/
def joinStr (parts : List String) : String :=
  let ps := (parts.map String.data).filter (fun s => !s.isEmpty)
  match ps with
  | [] => "."
  | _ :: _ => normalizeStr (String.mk (joinSegs ps))

/-- Segments of `path.posix.resolve p` for an absolute `p` (the only way
the source calls `path.relative`: both arguments are absolute paths). -/
def resolveAbsSegs (p : String) : List (List Char) :=
  normSegsAux true [] (segsOf p.data)

/-- Segment-level core of Node `path.posix.relative`: strip the common
segment prefix of the two resolved paths, then climb with `".."` for each
remaining source segment. -/
def relSegs : List (List Char) → List (List Char) → List (List Char)
  | [], ts => ts
  | _ :: fs, [] => List.replicate (fs.length + 1) ['.', '.']
  | f :: fs, t :: ts =>
    if f = t then relSegs fs ts
    else List.replicate (fs.length + 1) ['.', '.'] ++ t :: ts

/-- Embedding of Node `path.posix.relative` for absolute arguments. -/
def relativeStr (src dst : String) : String :=
  String.mk (joinSegs (relSegs (resolveAbsSegs src) (resolveAbsSegs dst)))

/-- Scan used by `dirname`: walk the characters at indices
`len-1, len-2, …, 1` (given in that order), skipping the trailing run of
separators, and return the index of the separator that ends the last
segment. -/
def findEnd : List Char → Bool → Nat → Option Nat
  | [], _, _ => none
  | c :: rest, matched, i =>
    if c = '/' then
      (if matched then findEnd rest true (i - 1) else some i)
    else findEnd rest false (i - 1)

/-- Embedding of Node `path.posix.dirname`. -/
def dirname (p : String) : String :=
  match p.data with
  | [] => "."
  | c0 :: _ =>
    let hasRoot : Bool := c0 = '/'
    match findEnd ((p.data.drop 1).reverse) true (p.data.length - 1) with
    | none => if hasRoot then "/" else "."
    | some e =>
      if hasRoot && e == 1 then "//" else String.mk (p.data.take e)

/-! ## S3 storage module (src/s3-storage.js, `src/unnamed/part_002`) -/

/-- The relevant configuration of the `S3Storage` class.  The source
field `prefix` (guaranteed by the constructor to end in `"/"` when
nonempty) is called `keyPrefix` here because `prefix` is a reserved
keyword in Lean. -/
structure S3Storage where
  bucket : String
  keyPrefix : String
  localDir : String
deriving DecidableEq

/-- Embedding of `S3Storage.getS3Key` (part_002 lines 75-78):
`this.prefix + path.relative(this.localDir, localPath).replace(/\\/g, "/")`. -/
def getS3Key (st : S3Storage) (localPath : String) : String :=
  st.keyPrefix ++ jsReplaceBackslash (relativeStr st.localDir localPath)

/-- Embedding of `S3Storage.getLocalPath` (part_002 lines 83-88): strip
the key prefix when present, then `path.join(this.localDir, rel)`. -/
def getLocalPath (st : S3Storage) (s3Key : String) : String :=
  joinStr [st.localDir,
    if jsStartsWith s3Key st.keyPrefix then jsSliceFrom s3Key (jsLength st.keyPrefix)
    else s3Key]

/-- One listed bucket object. -/
structure S3Object where
  key : String
  content : String
deriving DecidableEq

/-- A bucket: either nonexistent (S3 raises `NoSuchBucket`), or the
sequence of `ListObjectsV2` response pages its listing produces. -/
inductive Bucket where
  | missing
  | present (pages : List (List S3Object))
deriving DecidableEq

/-- The local filesystem: the set of directories known to exist and the
files present (path, contents); later entries shadow earlier ones. -/
structure FS where
  dirs : List String
  files : List (String × String)
deriving DecidableEq

/-- Embedding of `fs.mkdirSync(d, { recursive: true })` (ancestor
directories, which no claim queries, are elided). -/
def FS.mkdirRec (fs : FS) (d : String) : FS :=
  { fs with dirs := d :: fs.dirs }

/-- Embedding of writing a local file (stream pipeline / writeFileSync). -/
def FS.writeLocal (fs : FS) (p c : String) : FS :=
  { fs with files := (p, c) :: fs.files }

/-- Embedding of `fs.existsSync` + `fs.readFileSync` on the file model. -/
def FS.readLocal? (fs : FS) (p : String) : Option String :=
  (fs.files.find? (fun e => e.fst == p)).map Prod.snd

/-- A directory exists on the modelled filesystem. -/
def FS.hasDir (fs : FS) (d : String) : Prop :=
  d ∈ fs.dirs

/-- The side-effecting actions a storage operation performs, in order. -/
inductive S3Act where
  | mkdirAct (dir : String)
  | listAct
  | getAct (key : String)
  | putAct (key : String) (content : String)
  | writeAct (localPath : String)
deriving DecidableEq

/-- Look a key up in the bucket (the `GetObjectCommand` result:
`none` models the `NoSuchKey` error). -/
def Bucket.lookup : Bucket → String → Option String
  | .missing, _ => none
  | .present pages, k => (pages.flatten.find? (fun o => o.key == k)).map S3Object.content

/-- Embedding of `S3Storage.downloadFile` (part_002 lines 132-157) given
the `GetObjectCommand` outcome `found`: the parent directory of the
mapped local path is created first, then the object is fetched;
`NoSuchKey` yields `false`, success writes the file and yields `true`. -/
def downloadFileCore (st : S3Storage) (found : Option String) (fs : FS) (s3Key : String) :
    Bool × FS × List S3Act :=
  let localPath := getLocalPath st s3Key
  let parent := dirname localPath
  let fs1 := fs.mkdirRec parent
  match found with
  | some content =>
      (true, fs1.writeLocal localPath content,
       [.mkdirAct parent, .getAct s3Key, .writeAct localPath])
  | none => (false, fs1, [.mkdirAct parent, .getAct s3Key])

/-- Embedding of `downloadFile` against a bucket.  On a missing bucket the AWS client
raises `NoSuchBucket`, which `downloadFile` does not catch (its `catch`
only converts `NoSuchKey` into `false`); the error case elides the
already-performed `mkdirSync`. -/
def downloadFile (st : S3Storage) (b : Bucket) (fs : FS) (s3Key : String) :
    Except String (Bool × FS × List S3Act) :=
  match b with
  | .missing => .error "NoSuchBucket"
  | .present pages =>
      .ok (downloadFileCore st (Bucket.lookup (.present pages) s3Key) fs s3Key)

/-- The body of `downloadAll`'s per-page loop (part_002 lines 112-120):
skip directory-marker keys, download every other listed object, counting
the downloads. -/
def downloadObjs (st : S3Storage) (fs : FS) : List S3Object → Nat × FS × List S3Act
  | [] => (0, fs, [])
  | o :: rest =>
    if jsEndsWithSlash o.key then downloadObjs st fs rest
    else
      let r := downloadFileCore st (some o.content) fs o.key
      let rec' := downloadObjs st r.2.1 rest
      (rec'.1 + 1, rec'.2.1, r.2.2 ++ rec'.2.2)

/-- The `do … while (continuationToken)` pagination loop of
`downloadAll`: one `ListObjectsV2` request per response page. -/
def downloadAllLoop (st : S3Storage) (fs : FS) : List (List S3Object) → Nat × FS × List S3Act
  | [] => (0, fs, [])
  | pg :: rest =>
    let r := downloadObjs st fs pg
    let r2 := downloadAllLoop st r.2.1 rest
    (r.1 + r2.1, r2.2.1, .listAct :: (r.2.2 ++ r2.2.2))

/-- Embedding of `S3Storage.downloadAll` (part_002 lines 94-127): ensure
the local root exists, then list and download page by page.  An empty
bucket produces the single page `[[]]` (one list response with no
`Contents`); a missing bucket makes the first list request raise
`NoSuchBucket`, which `downloadAll` propagates. -/
def downloadAll (st : S3Storage) (b : Bucket) (fs : FS) :
    Except String (Nat × FS × List S3Act) :=
  match b with
  | .missing => .error "NoSuchBucket"
  | .present pages =>
    let fs0 := fs.mkdirRec st.localDir
    let r := downloadAllLoop st fs0 pages
    .ok (r.1, r.2.1, .mkdirAct st.localDir :: r.2.2)

/-- Append an object to the bucket contents (PutObjectCommand; a put on a
missing bucket is modelled as creating it). -/
def Bucket.put : Bucket → String → String → Bucket
  | .missing, k, c => .present [[⟨k, c⟩]]
  | .present pages, k, c => .present (pages ++ [[⟨k, c⟩]])

/-- Embedding of `S3Storage.uploadFile` (part_002 lines 163-184): if the
local file is absent, return `false` having performed no storage call;
otherwise put the file's contents under `prefix + relativePath`. -/
def uploadFile (st : S3Storage) (b : Bucket) (fs : FS) (relativePath : String) :
    Bool × Bucket × List S3Act :=
  let localPath := joinStr [st.localDir, relativePath]
  let s3Key := st.keyPrefix ++ jsReplaceBackslash relativePath
  match fs.readLocal? localPath with
  | none => (false, b, [])
  | some content => (true, b.put s3Key content, [.putAct s3Key content])

/-- Embedding of `initStorage` (part_002 lines 319-339): run
`downloadAll` and swallow `NoSuchBucket` (and `NoSuchKey`/404) as a benign
first-run condition, reporting zero files downloaded. -/
def initStorage (st : S3Storage) (b : Bucket) (fs : FS) :
    Except String (Nat × FS × List S3Act) :=
  match downloadAll st b fs with
  | .ok r => .ok r
  | .error e =>
    if e = "NoSuchBucket" || e = "NoSuchKey" then .ok (0, fs, []) else .error e

/-! ## Gateway service supervisor (src/services/gateway/src/server.js) -/

/-- The mutable module state of the gateway service: the single child
process handle `gatewayProc` (`null` or a live handle, identified by its
pid) and the last-seen config modification timestamp
`configLastModified` (`null` until first recorded; `stats.mtimeMs`). -/
structure GwState where
  gatewayProc : Option Nat
  configLastModified : Option Nat
deriving DecidableEq

/-- What one poller tick observes from the outside world: whether
`storage.downloadFile` succeeded, whether `isConfigured()` holds, the
`fs.statSync(configPath()).mtimeMs` of the config file, and the pid the
OS would assign to a newly spawned process. -/
structure TickEnv where
  downloadOk : Bool
  configured : Bool
  mtime : Nat
  newPid : Nat
deriving DecidableEq

/-- JS truthiness of `configLastModified`: `null` and `0` are falsy. -/
def mtimeTruthy : Option Nat → Prop
  | some m => m ≠ 0
  | none => False

instance instDecMtimeTruthy (o : Option Nat) : Decidable (mtimeTruthy o) :=
  match o with
  | some m => inferInstanceAs (Decidable (m ≠ 0))
  | none => inferInstanceAs (Decidable False)

/-- Embedding of `startGateway` (server.js lines 90-156): a live handle
makes the call a no-op, an unconfigured state makes it a no-op; otherwise
a process is spawned and the config file's modification timestamp is
recorded as the drift baseline.  The second component counts spawns. -/
def startGateway (env : TickEnv) (st : GwState) : GwState × Nat :=
  if st.gatewayProc.isSome then (st, 0)
  else if ¬ env.configured then (st, 0)
  else ({ gatewayProc := some env.newPid, configLastModified := some env.mtime }, 1)

/-- Embedding of `restartGateway` (server.js lines 158-170): if a handle
is live, send SIGTERM, wait the fixed grace period, clear the handle;
then call `startGateway`. -/
def restartGateway (env : TickEnv) (st : GwState) : GwState × Nat :=
  startGateway env { st with gatewayProc := none }

/-- Embedding of one tick of `checkForConfigUpdates` (server.js lines
173-197).  Returns the new state, the number of spawns, and the number of
`restartGateway` invocations. -/
def checkForConfigUpdates (env : TickEnv) (st : GwState) : GwState × Nat × Nat :=
  if env.downloadOk ∧ env.configured then
    if mtimeTruthy st.configLastModified ∧ st.configLastModified ≠ some env.mtime then
      let st1 : GwState := { st with configLastModified := some env.mtime }
      let r := restartGateway env st1
      (r.1, r.2, 1)
    else if st.gatewayProc.isNone then
      let r := startGateway env st
      (r.1, r.2, 0)
    else (st, 0, 0)
  else (st, 0, 0)

/-- Two consecutive poller ticks; returns the final state, total spawns
and total `restartGateway` invocations. -/
def twoTicks (env1 env2 : TickEnv) (st : GwState) : GwState × Nat × Nat :=
  let r1 := checkForConfigUpdates env1 st
  let r2 := checkForConfigUpdates env2 r1.1
  (r2.1, r1.2.1 + r2.2.1, r1.2.2 + r2.2.2)

/-- Iterate `n` immediately successive `startGateway` calls; returns the final
state and the total number of spawns. -/
def startN (env : TickEnv) : Nat → GwState → GwState × Nat
  | 0, st => (st, 0)
  | n + 1, st =>
    let r := startGateway env st
    let r2 := startN env n r.1
    (r2.1, r.2 + r2.2)

/-! ### Timed model of the stop-then-start transition

`restartGateway` with a live handle runs: `gatewayProc.kill("SIGTERM")`,
`await sleep(1000)`, `gatewayProc = null`, then spawn.  The supervisor
never waits for the `exit` event: the old process receives SIGTERM at
time `0` and exits at some time `exitTime` of its own choosing (SIGTERM
can be handled or delayed), while the new process is spawned at the fixed
time `1000`. -/

/-- The time `restartGateway` sends SIGTERM to the live process. -/
def killTime : Nat := 0

/-- The time `restartGateway` spawns the replacement process: the fixed
`sleep(1000)` grace period after the SIGTERM, with no wait for exit. -/
def restartSpawnTime : Nat := killTime + 1000

/-- The old gateway process is still live at time `t`. -/
def oldProcLiveAt (exitTime t : Nat) : Prop := t < exitTime

/-- The replacement gateway process is live at time `t`. -/
def newProcLiveAt (t : Nat) : Prop := restartSpawnTime ≤ t

/-- Two gateway processes are live at the same time `t`. -/
def twoLiveAt (exitTime t : Nat) : Prop :=
  oldProcLiveAt exitTime t ∧ newProcLiveAt t

/-- The old process's exit happens no later than the replacement spawn,
i.e. the supervisor could have observed the exit before spawning. -/
def exitBeforeSpawn (exitTime : Nat) : Prop := exitTime ≤ restartSpawnTime

/-! ## Token resolution (server.js lines 47-80, part_001 lines 54-86,
part_000 lines 25-45) -/

/-- The inputs token resolution reads: the `MOLTBOT_GATEWAY_TOKEN`
environment variable (`none` when unset), the `gateway.auth.token` field
of the parsed config file (`none` when the file is missing, unparsable or
the field absent), the contents of the legacy `gateway.token` file
(`none` when unreadable), and the value `crypto.randomBytes(32)` would
produce. -/
structure TokenEnv where
  envToken : Option String
  configToken : Option String
  fileToken : Option String
  generated : String
deriving DecidableEq

/-- JS truthiness of an optional string: `undefined` and `""` are falsy. -/
def strTruthy : Option String → Prop
  | some s => s ≠ ""
  | none => False

instance instDecStrTruthy (o : Option String) : Decidable (strTruthy o) :=
  match o with
  | some s => inferInstanceAs (Decidable (s ≠ ""))
  | none => inferInstanceAs (Decidable False)

/-- Embedding of `resolveGatewayToken` as implemented by the two
S3-backed services (server.js lines 47-80 and part_001 lines 54-86):
environment override (trimmed), then the config-embedded
`gateway.auth.token` field, then the trimmed legacy token file, then a
freshly generated token.  The second component is the content written to
the legacy token file (`some` exactly when the generate branch runs its
best-effort persist). -/
def resolveGatewayToken (env : TokenEnv) : String × Option String :=
  let envTok := env.envToken.map jsTrim
  if strTruthy envTok then (envTok.getD "", none)
  else if strTruthy env.configToken then (env.configToken.getD "", none)
  else
    let fileTok := env.fileToken.map jsTrim
    if strTruthy fileTok then (fileTok.getD "", none)
    else (env.generated, some env.generated)

/-- Embedding of `resolveGatewayToken` as implemented by the standalone
gateway service (part_000 lines 25-45): environment override (trimmed),
then the trimmed legacy token file, then a freshly generated token.  This
variant never reads the config file. -/
def resolveGatewayTokenP0 (env : TokenEnv) : String × Option String :=
  let envTok := env.envToken.map jsTrim
  if strTruthy envTok then (envTok.getD "", none)
  else
    let fileTok := env.fileToken.map jsTrim
    if strTruthy fileTok then (fileTok.getD "", none)
    else (env.generated, some env.generated)

/-! ## Setup service reverse proxy (src/unnamed/part_001) -/

/-- Embedding of the `proxyReq`/`proxyReqWs` listeners (part_001 lines
599-609): read the module variable `MOLTBOT_GATEWAY_TOKEN` at forward
time; when it is non-null set `Authorization: Bearer <value>`, otherwise
add no header. -/
def proxyAuthHeader (tokenVar : Option String) : Option String :=
  match tokenVar with
  | some t => some ("Bearer " ++ t)
  | none => none

/-- Events of the setup service's life relevant to header injection: a
request is forwarded through the proxy, or the module variable
`MOLTBOT_GATEWAY_TOKEN` is assigned (startup resolution, setup run). -/
inductive ProxyEvent where
  | forward
  | setTokenVar (v : Option String)
deriving DecidableEq

/-- The Authorization header of each forwarded request along a run,
given the initial value of the token variable. -/
def forwardHeaders : Option String → List ProxyEvent → List (Option String)
  | _, [] => []
  | v, .forward :: rest => proxyAuthHeader v :: forwardHeaders v rest
  | _, .setTokenVar w :: rest => forwardHeaders w rest

/-- The paths with registered express routes in the setup service; every
other path falls through to the catch-all handler. -/
def setupRoutePaths : List String :=
  ["/setup/healthz", "/setup/app.js", "/setup", "/setup/api/status",
   "/setup/api/run", "/setup/api/debug", "/setup/api/pairing/approve",
   "/setup/api/reset", "/setup/export"]

/-- Outcome of dispatching one HTTP request in the setup service. -/
inductive HttpOutcome where
  | setupHandled
  | redirected (loc : String)
  | proxiedToGateway
deriving DecidableEq

/-- Embedding of the setup service's express dispatch with the catch-all
handler (part_001 lines 611-617): a registered setup route is handled
locally; otherwise, when unconfigured and the path is not under
`/setup`, redirect to `/setup`; otherwise forward to the gateway. -/
def handleRequest (configured : Bool) (path : String) : HttpOutcome :=
  if path ∈ setupRoutePaths then .setupHandled
  else if ¬ configured ∧ ¬ jsStartsWith path "/setup" then .redirected "/setup"
  else .proxiedToGateway

/-- Outcome of a WebSocket upgrade in the setup service. -/
inductive UpgradeOutcome where
  | socketDestroyed
  | proxiedWs
deriving DecidableEq

/-- Embedding of the `server.on("upgrade")` handler (part_001 lines
645-651): while unconfigured every upgrade's socket is destroyed
immediately; otherwise the upgrade is proxied. -/
def handleUpgrade (configured : Bool) : UpgradeOutcome :=
  if ¬ configured then .socketDestroyed else .proxiedWs

/-! ## Auxiliary predicates for the key/path mapping claims -/

/-- A path segment that survives the key/path round trip unchanged: it
is nonempty, contains no separator and no backslash, and is neither of
the special segments `"."` and `".."`. -/
def GoodSeg (s : List Char) : Prop :=
  s ≠ [] ∧ '/' ∉ s ∧ '\\' ∉ s ∧ s ≠ ['.'] ∧ s ≠ ['.', '.']

instance instDecGoodSeg (s : List Char) : Decidable (GoodSeg s) :=
  inferInstanceAs (Decidable (_ ∧ _ ∧ _ ∧ _ ∧ _))

/-- The local root is an absolute path with no `"."`/`".."` segments (as
the deployed values `/tmp/moltbot-state`, `$HOME` and `/data` are). -/
def CleanAbsDir (d : String) : Prop :=
  d.data.head? = some '/' ∧ ∀ s ∈ segsOf d.data, s ≠ ['.'] ∧ s ≠ ['.', '.']

instance instDecCleanAbsDir (d : String) : Decidable (CleanAbsDir d) :=
  inferInstanceAs (Decidable (_ ∧ _))

/-- The local paths written by a sequence of storage actions, in order. -/
def writesOf : List S3Act → List String
  | [] => []
  | .writeAct p :: rest => p :: writesOf rest
  | .mkdirAct _ :: rest => writesOf rest
  | .listAct :: rest => writesOf rest
  | .getAct _ :: rest => writesOf rest
  | .putAct _ _ :: rest => writesOf rest

/-! ## Lemmas about the path model -/

theorem splitSlash_ne_nil (l : List Char) : splitSlash l ≠ [] := by
  cases l with
  | nil => simp [splitSlash]
  | cons c rest =>
    simp only [splitSlash]
    cases h : splitSlash rest with
    | nil => simp
    | cons s ss => by_cases hc : c = '/' <;> simp [hc]

theorem splitSlash_append (a b : List Char) :
    splitSlash (a ++ '/' :: b) = splitSlash a ++ splitSlash b := by
  induction a with
  | nil =>
    simp only [List.nil_append, splitSlash]
    cases h : splitSlash b with
    | nil => exact absurd h (splitSlash_ne_nil b)
    | cons s ss => simp
  | cons c a' ih =>
    simp only [List.cons_append, splitSlash, List.append_eq]
    rw [ih]
    cases h : splitSlash a' with
    | nil => exact absurd h (splitSlash_ne_nil a')
    | cons s ss => by_cases hc : c = '/' <;> simp [hc]

theorem dropEmpty_append (a b : List (List Char)) :
    dropEmpty (a ++ b) = dropEmpty a ++ dropEmpty b := by
  induction a with
  | nil => simp [dropEmpty]
  | cons s a' ih =>
    by_cases hs : s = [] <;> simp [dropEmpty, hs, ih]

theorem segsOf_append_slash (a b : List Char) :
    segsOf (a ++ '/' :: b) = segsOf a ++ segsOf b := by
  unfold segsOf
  rw [splitSlash_append, dropEmpty_append]

theorem splitSlash_no_slash (l : List Char) (h : ∀ c ∈ l, c ≠ '/') (hne : l ≠ []) :
    splitSlash l = [l] := by
  induction l with
  | nil => exact absurd rfl hne
  | cons c rest ih =>
    have hc : c ≠ '/' := h c (by simp)
    by_cases hrn : rest = []
    · subst hrn
      simp [splitSlash, hc]
    · have hrest : splitSlash rest = [rest] := ih (fun x hx => h x (by simp [hx])) hrn
      simp [splitSlash, hrest, hc]

theorem mem_splitSlash_no_slash (l : List Char) (s : List Char)
    (hs : s ∈ splitSlash l) : '/' ∉ s := by
  induction l generalizing s with
  | nil =>
    simp [splitSlash] at hs
    simp [hs]
  | cons c rest ih =>
    simp only [splitSlash] at hs
    cases h : splitSlash rest with
    | nil => exact absurd h (splitSlash_ne_nil rest)
    | cons t ts =>
      rw [h] at hs
      by_cases hc : c = '/'
      · simp [hc] at hs
        rcases hs with hs | hs | hs
        · simp [hs]
        · exact ih s (by rw [h]; simp [hs])
        · exact ih s (by rw [h]; simp [hs])
      · simp [hc] at hs
        rcases hs with hs | hs
        · intro hmem
          rw [hs] at hmem
          rcases List.mem_cons.mp hmem with h1 | h1
          · exact hc h1.symm
          · have : '/' ∉ t := ih t (by rw [h]; simp)
            exact this h1
        · exact ih s (by rw [h]; simp [hs])

theorem mem_dropEmpty (l : List (List Char)) (s : List Char) (hs : s ∈ dropEmpty l) :
    s ∈ l ∧ s ≠ [] := by
  induction l with
  | nil => simp [dropEmpty] at hs
  | cons t rest ih =>
    by_cases ht : t = []
    · simp [dropEmpty, ht] at hs
      rcases ih hs with ⟨h1, h2⟩
      exact ⟨by simp [h1], h2⟩
    · simp [dropEmpty, ht] at hs
      rcases hs with hs | hs
      · exact ⟨by simp [hs], by rw [hs]; exact ht⟩
      · rcases ih hs with ⟨h1, h2⟩
        exact ⟨by simp [h1], h2⟩

theorem dropEmpty_of_no_empty (l : List (List Char)) (h : ∀ s ∈ l, s ≠ []) :
    dropEmpty l = l := by
  induction l with
  | nil => rfl
  | cons t rest ih =>
    have ht : t ≠ [] := h t (by simp)
    simp [dropEmpty, ht, ih (fun x hx => h x (by simp [hx]))]

theorem segsOf_joinSegs (segs : List (List Char))
    (h : ∀ s ∈ segs, s ≠ [] ∧ '/' ∉ s) :
    segsOf (joinSegs segs) = segs := by
  induction segs with
  | nil => rfl
  | cons s rest ih =>
    cases hr : rest with
    | nil =>
      have hs := h s (by simp)
      simp only [joinSegs]
      unfold segsOf
      rw [splitSlash_no_slash s (fun c hc hceq => hs.2 (hceq ▸ hc)) hs.1]
      simp [dropEmpty, hs.1]
    | cons t ts =>
      rw [← hr]
      have hjoin : joinSegs (s :: rest) = s ++ '/' :: joinSegs rest := by
        rw [hr]; rfl
      rw [hjoin, segsOf_append_slash]
      have hs := h s (by simp)
      have hsingle : segsOf s = [s] := by
        unfold segsOf
        rw [splitSlash_no_slash s (fun c hc hceq => hs.2 (hceq ▸ hc)) hs.1]
        simp [dropEmpty, hs.1]
      rw [hsingle, ih (fun x hx => h x (by simp [hx]))]
      rfl

theorem normSegsAux_clean (abs : Bool) (segs : List (List Char))
    (h : ∀ s ∈ segs, s ≠ ['.'] ∧ s ≠ ['.', '.']) (acc : List (List Char)) :
    normSegsAux abs acc segs = acc.reverse ++ segs := by
  induction segs generalizing acc with
  | nil => simp [normSegsAux]
  | cons s rest ih =>
    have hs := h s (by simp)
    simp only [normSegsAux, hs.1, hs.2, if_false]
    rw [ih (fun x hx => h x (by simp [hx])) (s :: acc)]
    simp

theorem joinSegs_ne_nil (segs : List (List Char)) (hne : segs ≠ [])
    (h : ∀ s ∈ segs, s ≠ []) : joinSegs segs ≠ [] := by
  cases segs with
  | nil => exact absurd rfl hne
  | cons s rest =>
    cases rest with
    | nil => exact h s (by simp)
    | cons t ts =>
      simp only [joinSegs]
      intro hcontra
      have hs := h s (by simp)
      cases hx : s with
      | nil => exact hs hx
      | cons c cs => rw [hx] at hcontra; simp at hcontra

theorem joinSegs_getLast? (segs : List (List Char)) (hne : segs ≠ [])
    (h : ∀ s ∈ segs, s ≠ []) :
    ∃ s ∈ segs, (joinSegs segs).getLast? = s.getLast? := by
  induction segs with
  | nil => exact absurd rfl hne
  | cons s rest ih =>
    cases hr : rest with
    | nil => exact ⟨s, by simp, rfl⟩
    | cons t ts =>
      rw [← hr]
      have hrne : rest ≠ [] := by rw [hr]; simp
      have hjoin : joinSegs (s :: rest) = s ++ '/' :: joinSegs rest := by
        rw [hr]; rfl
      have hJne : joinSegs rest ≠ [] :=
        joinSegs_ne_nil rest hrne (fun x hx => h x (by simp [hx]))
      rcases ih hrne (fun x hx => h x (by simp [hx])) with ⟨x, hx1, hx2⟩
      refine ⟨x, by simp [hx1], ?_⟩
      rw [hjoin]
      rw [List.getLast?_append_of_ne_nil s (by simp : ('/' :: joinSegs rest) ≠ [])]
      have : ('/' :: joinSegs rest) = ['/'] ++ joinSegs rest := rfl
      rw [this, List.getLast?_append_of_ne_nil ['/'] hJne]
      exact hx2

theorem mem_joinSegs (segs : List (List Char)) (c : Char) (hc : c ∈ joinSegs segs) :
    c = '/' ∨ ∃ s ∈ segs, c ∈ s := by
  induction segs with
  | nil => simp [joinSegs] at hc
  | cons s rest ih =>
    by_cases hrn : rest = []
    · subst hrn
      simp only [joinSegs] at hc
      exact Or.inr ⟨s, by simp, hc⟩
    · have hjoin : joinSegs (s :: rest) = s ++ '/' :: joinSegs rest := by
        cases rest with
        | nil => exact absurd rfl hrn
        | cons t ts => rfl
      rw [hjoin] at hc
      rcases List.mem_append.mp hc with h1 | h1
      · exact Or.inr ⟨s, by simp, h1⟩
      · rcases List.mem_cons.mp h1 with h2 | h2
        · exact Or.inl h2
        · rcases ih h2 with h3 | ⟨x, hx1, hx2⟩
          · exact Or.inl h3
          · exact Or.inr ⟨x, by simp [hx1], hx2⟩

theorem getLast?_mem {α : Type} (l : List α) (c : α) (h : l.getLast? = some c) : c ∈ l := by
  rcases List.mem_getLast?_eq_getLast (show c ∈ l.getLast? from h) with ⟨hne, heq⟩
  rw [heq]
  exact List.getLast_mem hne

theorem startsWithCL_append (p q : List Char) : startsWithCL (p ++ q) p = true := by
  induction p with
  | nil => cases q <;> rfl
  | cons c cs ih => simp [startsWithCL, ih]

theorem relSegs_append (l r : List (List Char)) : relSegs l (l ++ r) = r := by
  induction l with
  | nil => rfl
  | cons f fs ih => simp [relSegs, ih]

theorem segsOf_cons_slash (l : List Char) : segsOf ('/' :: l) = segsOf l := by
  unfold segsOf
  simp only [splitSlash]
  cases h : splitSlash l with
  | nil => exact absurd h (splitSlash_ne_nil l)
  | cons s ss => simp [dropEmpty]

theorem mapNoBackslash (l : List Char) (h : ∀ c ∈ l, c ≠ '\\') :
    l.map (fun c => if c = '\\' then '/' else c) = l := by
  induction l with
  | nil => rfl
  | cons c cs ih =>
    simp only [List.map_cons]
    rw [if_neg (h c (by simp)), ih (fun x hx => h x (by simp [hx]))]

theorem jsReplaceBackslash_id (s : String) (h : ∀ c ∈ s.data, c ≠ '\\') :
    jsReplaceBackslash s = s := by
  unfold jsReplaceBackslash
  rw [mapNoBackslash s.data h]

theorem joinStr_two (a b : String) (ha : a.data ≠ []) (hb : b.data ≠ []) :
    joinStr [a, b] = normalizeStr (String.mk (a.data ++ '/' :: b.data)) := by
  unfold joinStr
  have hfa : (!a.data.isEmpty) = true := by
    simp [List.isEmpty_iff, ha]
  have hfb : (!b.data.isEmpty) = true := by
    simp [List.isEmpty_iff, hb]
  simp only [List.map_cons, List.map_nil, List.filter, hfa, hfb]
  rfl

theorem writesOf_append (a b : List S3Act) :
    writesOf (a ++ b) = writesOf a ++ writesOf b := by
  induction a with
  | nil => rfl
  | cons x rest ih => cases x <;> simp [writesOf, ih]

theorem downloadObjs_writes (st : S3Storage) (objs : List S3Object) :
    ∀ fs : FS, writesOf (downloadObjs st fs objs).2.2
      = (objs.filter (fun o => !jsEndsWithSlash o.key)).map
          (fun o => getLocalPath st o.key) := by
  induction objs with
  | nil => intro fs; rfl
  | cons o rest ih =>
    intro fs
    cases hm : jsEndsWithSlash o.key with
    | true => simp [downloadObjs, hm, ih, List.filter]
    | false =>
      simp [downloadObjs, hm, downloadFileCore, writesOf_append, writesOf, ih,
        List.filter]

theorem downloadAllLoop_writes (st : S3Storage) (pages : List (List S3Object)) :
    ∀ fs : FS, writesOf (downloadAllLoop st fs pages).2.2
      = (pages.flatten.filter (fun o => !jsEndsWithSlash o.key)).map
          (fun o => getLocalPath st o.key) := by
  induction pages with
  | nil => intro fs; rfl
  | cons pg rest ih =>
    intro fs
    simp [downloadAllLoop, writesOf, writesOf_append, downloadObjs_writes, ih,
      List.filter_append]

/-! ## Claims about the supervisor and the poller -/

/-- C3: calling `startGateway` while a live process handle exists is a
silent no-op — for any number of immediately successive calls the state
is unchanged, no spawn occurs, and exactly the one live handle remains. -/
theorem claim_C3 (env : TickEnv) (st : GwState) (p : Nat) (n : Nat)
    (h : st.gatewayProc = some p) :
    startN env n st = (st, 0) ∧ (startN env n st).1.gatewayProc = some p := by
  have hstep : startGateway env st = (st, 0) := by
    simp [startGateway, h]
  have hmain : startN env n st = (st, 0) := by
    induction n with
    | zero => rfl
    | succ k ih => simp [startN, hstep, ih]
  exact ⟨hmain, by rw [hmain]; exact h⟩

/-- Witness for C3 at a concrete running state and four successive calls. -/
theorem claim_C3_witness :
    (⟨some 7, some 5⟩ : GwState).gatewayProc = some 7
    ∧ startN ⟨true, true, 5, 9⟩ 4 ⟨some 7, some 5⟩ = (⟨some 7, some 5⟩, 0) :=
  ⟨rfl, (claim_C3 ⟨true, true, 5, 9⟩ ⟨some 7, some 5⟩ 7 4 rfl).1⟩

/-- C1 (amended): starting from a steady running state whose recorded
timestamp `m1` is nonzero, two ticks that both fetch successfully and
observe timestamps `m1` and `m2` trigger zero restarts when `m1 = m2`,
and exactly one `restartGateway` (and one respawn) with
`configLastModified` updated to `m2` when `m1 ≠ m2`. -/
theorem claim_C1_amended (pid m1 m2 np1 np2 : Nat) (h1 : m1 ≠ 0) :
    (m1 = m2 →
      twoTicks ⟨true, true, m1, np1⟩ ⟨true, true, m2, np2⟩ ⟨some pid, some m1⟩
        = (⟨some pid, some m1⟩, 0, 0))
    ∧ (m1 ≠ m2 →
      (twoTicks ⟨true, true, m1, np1⟩ ⟨true, true, m2, np2⟩ ⟨some pid, some m1⟩).2.2 = 1
      ∧ (twoTicks ⟨true, true, m1, np1⟩ ⟨true, true, m2, np2⟩
          ⟨some pid, some m1⟩).1.configLastModified = some m2
      ∧ (twoTicks ⟨true, true, m1, np1⟩ ⟨true, true, m2, np2⟩ ⟨some pid, some m1⟩).2.1 = 1) := by
  have htick1 : ∀ np : Nat,
      checkForConfigUpdates ⟨true, true, m1, np⟩ ⟨some pid, some m1⟩
        = (⟨some pid, some m1⟩, 0, 0) := by
    intro np
    simp [checkForConfigUpdates, mtimeTruthy]
  constructor
  · intro heq
    subst heq
    simp [twoTicks, htick1]
  · intro hne
    have htick2 :
        checkForConfigUpdates ⟨true, true, m2, np2⟩ ⟨some pid, some m1⟩
          = (⟨some np2, some m2⟩, 1, 1) := by
      simp [checkForConfigUpdates, mtimeTruthy, h1, hne, restartGateway, startGateway]
    simp [twoTicks, htick1, htick2]

/-- Witness for C1 (amended) at recorded timestamp 5 and observed
timestamps 5, 7. -/
theorem claim_C1_witness :
    (5 : Nat) ≠ 0
    ∧ twoTicks ⟨true, true, 5, 11⟩ ⟨true, true, 5, 12⟩ ⟨some 3, some 5⟩
        = (⟨some 3, some 5⟩, 0, 0)
    ∧ (twoTicks ⟨true, true, 5, 11⟩ ⟨true, true, 7, 12⟩ ⟨some 3, some 5⟩).2.2 = 1 :=
  ⟨by decide, (claim_C1_amended 3 5 5 11 12 (by decide)).1 rfl,
   ((claim_C1_amended 3 5 7 11 12 (by decide)).2 (by decide)).1⟩

/-- C1 counterexample: with a recorded timestamp of `0`, JS truthiness
(`if (configLastModified && …)`) treats the recorded value as absent, so
two successful ticks observing the differing timestamps `0` and `1`
trigger zero restarts and leave `configLastModified` at `0` — the claim
as stated promises exactly one restart and an update to `1`. -/
theorem claim_C1_counterexample :
    (0 : Nat) ≠ 1
    ∧ (twoTicks ⟨true, true, 0, 11⟩ ⟨true, true, 1, 12⟩ ⟨some 3, some 0⟩).2.2 = 0
    ∧ (twoTicks ⟨true, true, 0, 11⟩ ⟨true, true, 1, 12⟩
        ⟨some 3, some 0⟩).1.configLastModified = some 0 := by
  decide

/-- C2 (amended): along `restartGateway`'s stop-then-start transition
the supervisor only waits the fixed `sleep(1000)` grace period after the
SIGTERM; if the old process's exit falls within that grace period, then
at no time are two gateway processes live concurrently. -/
theorem claim_C2_amended (exitTime : Nat) (h : exitBeforeSpawn exitTime) :
    ∀ t, ¬ twoLiveAt exitTime t := by
  intro t ht
  have h1 : t < exitTime := ht.1
  have h2 : restartSpawnTime ≤ t := ht.2
  have h3 : exitTime ≤ restartSpawnTime := h
  omega

/-- Witness for C2 (amended): an old process exiting at time 500 is never
live together with the replacement. -/
theorem claim_C2_witness : exitBeforeSpawn 500 ∧ ¬ twoLiveAt 500 2000 :=
  ⟨by simp [exitBeforeSpawn, restartSpawnTime, killTime],
   claim_C2_amended 500 (by simp [exitBeforeSpawn, restartSpawnTime, killTime]) 2000⟩

/-- C2 counterexample: an old process that survives SIGTERM past the
fixed grace period (exiting at time 2000) is still live at time 1500,
after the replacement was spawned at time 1000 — two live gateway
processes coexist and the exit was not observed before the spawn. -/
theorem claim_C2_counterexample :
    twoLiveAt 2000 1500 ∧ ¬ exitBeforeSpawn 2000 := by
  constructor
  · exact ⟨by simp [oldProcLiveAt], by simp [newProcLiveAt, restartSpawnTime, killTime]⟩
  · simp [exitBeforeSpawn, restartSpawnTime, killTime]

/-! ## Claims about token resolution -/

/-- C4 (amended): the two S3-backed services' `resolveGatewayToken`
follows the strict chain environment override → config-embedded token →
legacy token file → freshly generated (persisted to the legacy token
file); the standalone gateway service's variant omits the
config-embedded step and falls from the override directly to the legacy
file. -/
theorem claim_C4_amended (env : TokenEnv) :
    (∀ e, env.envToken = some e → jsTrim e ≠ "" →
      resolveGatewayToken env = (jsTrim e, none)
      ∧ resolveGatewayTokenP0 env = (jsTrim e, none))
    ∧ (¬ strTruthy (env.envToken.map jsTrim) →
      ∀ c, env.configToken = some c → c ≠ "" →
        resolveGatewayToken env = (c, none))
    ∧ (¬ strTruthy (env.envToken.map jsTrim) → ¬ strTruthy env.configToken →
      ∀ f, env.fileToken = some f → jsTrim f ≠ "" →
        resolveGatewayToken env = (jsTrim f, none))
    ∧ (¬ strTruthy (env.envToken.map jsTrim) →
      ∀ f, env.fileToken = some f → jsTrim f ≠ "" →
        resolveGatewayTokenP0 env = (jsTrim f, none))
    ∧ (¬ strTruthy (env.envToken.map jsTrim) → ¬ strTruthy env.configToken →
      ¬ strTruthy (env.fileToken.map jsTrim) →
        resolveGatewayToken env = (env.generated, some env.generated))
    ∧ (¬ strTruthy (env.envToken.map jsTrim) →
      ¬ strTruthy (env.fileToken.map jsTrim) →
        resolveGatewayTokenP0 env = (env.generated, some env.generated)) := by
  refine ⟨?_, ?_, ?_, ?_, ?_, ?_⟩
  · intro e he hne
    have ht : strTruthy (env.envToken.map jsTrim) := by rw [he]; exact hne
    constructor
    · simp only [resolveGatewayToken]
      rw [if_pos ht, he]
      rfl
    · simp only [resolveGatewayTokenP0]
      rw [if_pos ht, he]
      rfl
  · intro henv c hc hcne
    have ht : strTruthy env.configToken := by rw [hc]; exact hcne
    simp only [resolveGatewayToken]
    rw [if_neg henv, if_pos ht, hc]
    rfl
  · intro henv hcfg f hf hfne
    have ht : strTruthy (env.fileToken.map jsTrim) := by rw [hf]; exact hfne
    simp only [resolveGatewayToken]
    rw [if_neg henv, if_neg hcfg, if_pos ht, hf]
    rfl
  · intro henv f hf hfne
    have ht : strTruthy (env.fileToken.map jsTrim) := by rw [hf]; exact hfne
    simp only [resolveGatewayTokenP0]
    rw [if_neg henv, if_pos ht, hf]
    rfl
  · intro henv hcfg hfile
    simp only [resolveGatewayToken]
    rw [if_neg henv, if_neg hcfg, if_neg hfile]
  · intro henv hfile
    simp only [resolveGatewayTokenP0]
    rw [if_neg henv, if_neg hfile]

/-- Witness for C4 (amended): all four rungs of the chain at concrete
inputs. -/
theorem claim_C4_witness :
    resolveGatewayToken ⟨some "ov", some "cfg", some "fil", "gen"⟩ = (jsTrim "ov", none)
    ∧ resolveGatewayToken ⟨none, some "cfg", some "fil", "gen"⟩ = ("cfg", none)
    ∧ resolveGatewayToken ⟨none, none, some "fil", "gen"⟩ = (jsTrim "fil", none)
    ∧ resolveGatewayToken ⟨none, none, none, "gen"⟩ = ("gen", some "gen") :=
  ⟨((claim_C4_amended ⟨some "ov", some "cfg", some "fil", "gen"⟩).1 "ov" rfl (by decide)).1,
   (claim_C4_amended ⟨none, some "cfg", some "fil", "gen"⟩).2.1 (by decide) "cfg" rfl
     (by decide),
   (claim_C4_amended ⟨none, none, some "fil", "gen"⟩).2.2.1 (by decide) (by decide) "fil" rfl
     (by decide),
   (claim_C4_amended ⟨none, none, none, "gen"⟩).2.2.2.2.1 (by decide) (by decide) (by decide)⟩

/-- C4 counterexample: the standalone gateway service's
`resolveGatewayToken` (part_000), with no override, a config-embedded
token `"cfg"` and a legacy file token `"fil"` all in place, returns the
file token, not the config-embedded one the claimed chain promises. -/
theorem claim_C4_counterexample :
    resolveGatewayTokenP0 ⟨none, some "cfg", some "fil", "gen"⟩ = ("fil", none)
    ∧ "fil" ≠ "cfg" := by
  decide

/-! ## Claims about the reverse proxy -/

/-- C5 (amended): the proxy injects `Authorization: Bearer <v>` where
`v` is the value of the in-memory module variable at forward time; an
assignment to the variable takes effect on the next forwarded request
without restarting the proxy, and with the variable unset no header is
injected. -/
theorem claim_C5_amended (v0 v1 : String) :
    forwardHeaders (some v0) [.forward, .setTokenVar (some v1), .forward]
      = [some ("Bearer " ++ v0), some ("Bearer " ++ v1)]
    ∧ proxyAuthHeader none = none :=
  ⟨rfl, rfl⟩

/-- C5 counterexample: with the module variable still caching
`"oldtok"` while the config file now embeds `"newtok"`, the injected
header carries the cached value, not the token that resolution at
forward time would produce — the token is cached, not re-resolved per
request. -/
theorem claim_C5_counterexample :
    proxyAuthHeader (some "oldtok") = some "Bearer oldtok"
    ∧ (resolveGatewayToken ⟨none, some "newtok", none, "gen"⟩).1 = "newtok"
    ∧ some "Bearer oldtok"
        ≠ some ("Bearer " ++ (resolveGatewayToken ⟨none, some "newtok", none, "gen"⟩).1) := by
  decide

/-- C9: while unconfigured, an HTTP request to any path not under
`/setup` is redirected to the setup entry point (never proxied to the
backend), and every WebSocket upgrade has its socket destroyed
immediately. -/
theorem claim_C9 (path : String) (h : jsStartsWith path "/setup" = false) :
    handleRequest false path = .redirected "/setup"
    ∧ handleUpgrade false = .socketDestroyed := by
  have hall : ∀ r ∈ setupRoutePaths, jsStartsWith r "/setup" = true := by decide
  have hmem : path ∉ setupRoutePaths := by
    intro hm
    rw [hall path hm] at h
    cases h
  constructor
  · unfold handleRequest
    rw [if_neg hmem, if_pos]
    refine ⟨by simp, ?_⟩
    simp [h]
  · rfl

/-- Witness for C9 at the non-setup path `/chat`. -/
theorem claim_C9_witness :
    jsStartsWith "/chat" "/setup" = false
    ∧ handleRequest false "/chat" = .redirected "/setup"
    ∧ handleUpgrade false = .socketDestroyed :=
  ⟨by decide, (claim_C9 "/chat" (by decide)).1, (claim_C9 "/chat" (by decide)).2⟩

/-! ## Claims about the storage mirror -/

/-- C7 (amended): `downloadAll` on an empty bucket returns a count of 0
and leaves the local root directory existing with the files untouched;
on a nonexistent bucket `downloadAll` itself raises `NoSuchBucket`, and
it is the `initStorage` wrapper that swallows the error and reports zero
files instead. -/
theorem claim_C7_amended (st : S3Storage) (fs : FS) :
    downloadAll st (.present [[]]) fs
      = .ok (0, fs.mkdirRec st.localDir, [.mkdirAct st.localDir, .listAct])
    ∧ (fs.mkdirRec st.localDir).hasDir st.localDir
    ∧ (fs.mkdirRec st.localDir).files = fs.files
    ∧ downloadAll st .missing fs = .error "NoSuchBucket"
    ∧ initStorage st .missing fs = .ok (0, fs, []) := by
  refine ⟨rfl, ?_, rfl, rfl, rfl⟩
  exact List.mem_cons_self _ _

/-- C7 counterexample: at a concrete configuration, `downloadAll` on a
nonexistent bucket raises `NoSuchBucket` rather than tolerating it, so
"downloadAll … on a nonexistent bucket likewise yields zero files rather
than an error" fails for `downloadAll` itself. -/
theorem claim_C7_counterexample :
    downloadAll ⟨"bkt", "moltbot/", "/tmp/moltbot-state"⟩ .missing ⟨[], []⟩
      = .error "NoSuchBucket" := by
  rfl

/-- C8: `uploadFile` on a relative path whose local file does not exist
returns `false`, performs no storage action, and leaves the bucket
unchanged. -/
theorem claim_C8 (st : S3Storage) (b : Bucket) (fs : FS) (rel : String)
    (h : fs.readLocal? (joinStr [st.localDir, rel]) = none) :
    uploadFile st b fs rel = (false, b, []) := by
  unfold uploadFile
  simp [h]

/-- Witness for C8 on an empty filesystem and a concrete configuration. -/
theorem claim_C8_witness :
    (⟨[], []⟩ : FS).readLocal?
        (joinStr [(⟨"bkt", "moltbot/", "/tmp/moltbot-state"⟩ : S3Storage).localDir,
                  ".moltbot/moltbot.json"]) = none
    ∧ uploadFile ⟨"bkt", "moltbot/", "/tmp/moltbot-state"⟩ (.present [[]]) ⟨[], []⟩
        ".moltbot/moltbot.json" = (false, .present [[]], []) :=
  ⟨rfl, claim_C8 ⟨"bkt", "moltbot/", "/tmp/moltbot-state"⟩ (.present [[]]) ⟨[], []⟩
    ".moltbot/moltbot.json" rfl⟩

/-- C10: `downloadFile` creates the parent directory of the mapped local
path before attempting the fetch, so when the object does not exist the
call returns `false` and the parent directory nevertheless exists
afterward (mkdir action strictly before the get action). -/
theorem claim_C10 (st : S3Storage) (pages : List (List S3Object)) (fs : FS) (k : String)
    (h : ∀ o ∈ pages.flatten, o.key ≠ k) :
    downloadFile st (.present pages) fs k
      = .ok (false, fs.mkdirRec (dirname (getLocalPath st k)),
             [.mkdirAct (dirname (getLocalPath st k)), .getAct k])
    ∧ (fs.mkdirRec (dirname (getLocalPath st k))).hasDir (dirname (getLocalPath st k)) := by
  have hnone : Bucket.lookup (.present pages) k = none := by
    simp only [Bucket.lookup]
    rw [List.find?_eq_none.mpr]
    · rfl
    · intro o ho
      simpa using h o ho
  constructor
  · simp only [downloadFile, hnone]
    rfl
  · exact List.mem_cons_self _ _

/-- Witness for C10 on a one-page bucket that lacks the config key. -/
theorem claim_C10_witness :
    (∀ o ∈ ([[⟨"moltbot/other.txt", "x"⟩]] : List (List S3Object)).flatten,
      o.key ≠ "moltbot/.moltbot/moltbot.json")
    ∧ downloadFile ⟨"bkt", "moltbot/", "/tmp/moltbot-state"⟩
        (.present [[⟨"moltbot/other.txt", "x"⟩]]) ⟨[], []⟩ "moltbot/.moltbot/moltbot.json"
      = .ok (false,
             FS.mkdirRec ⟨[], []⟩
               (dirname (getLocalPath ⟨"bkt", "moltbot/", "/tmp/moltbot-state"⟩
                 "moltbot/.moltbot/moltbot.json")),
             [.mkdirAct (dirname (getLocalPath ⟨"bkt", "moltbot/", "/tmp/moltbot-state"⟩
                 "moltbot/.moltbot/moltbot.json")),
              .getAct "moltbot/.moltbot/moltbot.json"]) :=
  ⟨by decide,
   (claim_C10 ⟨"bkt", "moltbot/", "/tmp/moltbot-state"⟩ [[⟨"moltbot/other.txt", "x"⟩]]
     ⟨[], []⟩ "moltbot/.moltbot/moltbot.json" (by decide)).1⟩

/-! ## Claims about the key/path mapping -/

/-- C6 (amended): the key/path mapping round trip
`getS3Key (getLocalPath k) = k` holds for every key under the configured
prefix whose remainder is a normalized relative path — nonempty
separator-free segments, none equal to `"."` or `".."`, none containing a
backslash — provided the local root is an absolute path free of
`"."`/`".."` segments; and along `downloadAll`'s page loop the local
files written are exactly the mapped paths of the listed
non-directory-marker keys, so keys ending in a separator are never
materialized as local files. -/
theorem claim_C6_amended (st : S3Storage) (segs : List (List Char))
    (hne : segs ≠ []) (hgood : ∀ s ∈ segs, GoodSeg s) (hdir : CleanAbsDir st.localDir) :
    getS3Key st (getLocalPath st (st.keyPrefix ++ String.mk (joinSegs segs)))
      = st.keyPrefix ++ String.mk (joinSegs segs)
    ∧ ∀ (fs : FS) (pages : List (List S3Object)),
        writesOf (downloadAllLoop st fs pages).2.2
          = (pages.flatten.filter (fun o => !jsEndsWithSlash o.key)).map
              (fun o => getLocalPath st o.key) := by
  refine ⟨?_, fun fs pages => downloadAllLoop_writes st pages fs⟩
  obtain ⟨hhead, hclean⟩ := hdir
  obtain ⟨ld, hLdata⟩ : ∃ ld, st.localDir.data = '/' :: ld := by
    cases hd : st.localDir.data with
    | nil => rw [hd] at hhead; cases hhead
    | cons c cs =>
      rw [hd] at hhead
      simp only [List.head?_cons, Option.some.injEq] at hhead
      exact ⟨cs, by rw [hhead]⟩
  have hsegne : ∀ s ∈ segs, s ≠ [] := fun s hs => (hgood s hs).1
  have hsegslash : ∀ s ∈ segs, '/' ∉ s := fun s hs => (hgood s hs).2.1
  have hJne : joinSegs segs ≠ [] := joinSegs_ne_nil segs hne hsegne
  -- Step 1: the key starts with the prefix; stripping it recovers the remainder.
  have hstrip : getLocalPath st (st.keyPrefix ++ String.mk (joinSegs segs))
      = joinStr [st.localDir, String.mk (joinSegs segs)] := by
    unfold getLocalPath
    have h1 : jsStartsWith (st.keyPrefix ++ String.mk (joinSegs segs)) st.keyPrefix = true := by
      unfold jsStartsWith
      rw [String.data_append]
      exact startsWithCL_append _ _
    have h2 : jsSliceFrom (st.keyPrefix ++ String.mk (joinSegs segs)) (jsLength st.keyPrefix)
        = String.mk (joinSegs segs) := by
      unfold jsSliceFrom jsLength
      rw [String.data_append, List.drop_left]
    rw [h1]
    simp only [if_true]
    rw [h2]
  -- Facts about the local root's segments.
  have hLne : ∀ s ∈ segsOf st.localDir.data, s ≠ [] :=
    fun s hs => (mem_dropEmpty _ s hs).2
  have hLslash : ∀ s ∈ segsOf st.localDir.data, '/' ∉ s :=
    fun s hs => mem_splitSlash_no_slash _ s (mem_dropEmpty _ s hs).1
  have hsegsAll : segsOf (st.localDir.data ++ '/' :: joinSegs segs)
      = segsOf st.localDir.data ++ segs := by
    rw [segsOf_append_slash,
      segsOf_joinSegs segs (fun s hs => ⟨hsegne s hs, hsegslash s hs⟩)]
  have hcleanAll : ∀ s ∈ segsOf st.localDir.data ++ segs,
      s ≠ ['.'] ∧ s ≠ ['.', '.'] := by
    intro s hs
    rcases List.mem_append.mp hs with h1 | h1
    · exact hclean s h1
    · exact ⟨(hgood s h1).2.2.2.1, (hgood s h1).2.2.2.2⟩
  have hnormAll : normSegsAux true [] (segsOf st.localDir.data ++ segs)
      = segsOf st.localDir.data ++ segs := by
    have h := normSegsAux_clean true _ hcleanAll []
    simpa using h
  have hallne : ∀ s ∈ segsOf st.localDir.data ++ segs, s ≠ [] := by
    intro s hs
    rcases List.mem_append.mp hs with h1 | h1
    · exact hLne s h1
    · exact hsegne s h1
  have hBodyne : joinSegs (segsOf st.localDir.data ++ segs) ≠ [] :=
    joinSegs_ne_nil _ (fun hx => hne (List.append_eq_nil.mp hx).2) hallne
  have hlastJ : (joinSegs segs).getLast? ≠ some '/' := by
    intro hl
    rcases joinSegs_getLast? segs hne hsegne with ⟨s, hs, heq⟩
    rw [heq] at hl
    exact hsegslash s hs (getLast?_mem s '/' hl)
  have hlastAll : (st.localDir.data ++ '/' :: joinSegs segs).getLast?
      = (joinSegs segs).getLast? := by
    rw [List.getLast?_append_of_ne_nil _ (by simp : ('/' :: joinSegs segs) ≠ [])]
    have hcons : ('/' :: joinSegs segs) = ['/'] ++ joinSegs segs := rfl
    rw [hcons, List.getLast?_append_of_ne_nil _ hJne]
  -- Step 2: join and normalize the local path.
  have hjoin2 : joinStr [st.localDir, String.mk (joinSegs segs)]
      = normalizeStr (String.mk (st.localDir.data ++ '/' :: joinSegs segs)) :=
    joinStr_two _ _ (by rw [hLdata]; simp) hJne
  have hdata : (String.mk (st.localDir.data ++ '/' :: joinSegs segs)).data
      = st.localDir.data ++ '/' :: joinSegs segs := rfl
  have hnorm : normalizeStr (String.mk (st.localDir.data ++ '/' :: joinSegs segs))
      = String.mk ('/' :: joinSegs (segsOf st.localDir.data ++ segs)) := by
    unfold normalizeStr
    rw [hdata, hsegsAll, hnormAll, hlastAll]
    rw [if_neg (by rw [hLdata]; simp)]
    rw [if_pos (by rw [hLdata]; simp)]
    rw [if_neg hBodyne, if_neg hlastJ]
  -- Step 3: map the local path back to a key.
  have hrel : relativeStr st.localDir
      (String.mk ('/' :: joinSegs (segsOf st.localDir.data ++ segs)))
      = String.mk (joinSegs segs) := by
    unfold relativeStr resolveAbsSegs
    have e1 : normSegsAux true [] (segsOf st.localDir.data) = segsOf st.localDir.data := by
      have h := normSegsAux_clean true _ hclean []
      simpa using h
    have e2 : segsOf ((String.mk
        ('/' :: joinSegs (segsOf st.localDir.data ++ segs))).data)
        = segsOf st.localDir.data ++ segs := by
      show segsOf ('/' :: joinSegs (segsOf st.localDir.data ++ segs)) = _
      rw [segsOf_cons_slash]
      exact segsOf_joinSegs _ (fun s hs => ⟨hallne s hs, by
        rcases List.mem_append.mp hs with h1 | h1
        · exact hLslash s h1
        · exact hsegslash s h1⟩)
    rw [e1, e2, hnormAll, relSegs_append]
  have hnoback : ∀ c ∈ (String.mk (joinSegs segs)).data, c ≠ '\\' := by
    intro c hcmem
    rcases mem_joinSegs segs c hcmem with h1 | ⟨s, hs, hcs⟩
    · subst h1; decide
    · exact fun hcb => (hgood s hs).2.2.1 (hcb ▸ hcs)
  rw [hstrip, hjoin2, hnorm]
  unfold getS3Key
  rw [hrel, jsReplaceBackslash_id _ hnoback]

/-- Witness for C6 (amended): the key `moltbot/x/y` under the deployed
configuration round-trips. -/
theorem claim_C6_witness :
    ([['x'], ['y']] : List (List Char)) ≠ []
    ∧ (∀ s ∈ ([['x'], ['y']] : List (List Char)), GoodSeg s)
    ∧ CleanAbsDir (⟨"bkt", "moltbot/", "/tmp/moltbot-state"⟩ : S3Storage).localDir
    ∧ getS3Key ⟨"bkt", "moltbot/", "/tmp/moltbot-state"⟩
        (getLocalPath ⟨"bkt", "moltbot/", "/tmp/moltbot-state"⟩
          ("moltbot/" ++ String.mk (joinSegs [['x'], ['y']])))
      = "moltbot/" ++ String.mk (joinSegs [['x'], ['y']]) :=
  ⟨by decide, by decide, by decide,
   (claim_C6_amended ⟨"bkt", "moltbot/", "/tmp/moltbot-state"⟩ [['x'], ['y']]
      (by decide) (by decide) (by decide)).1⟩

/-- C6 counterexample: a directory-marker key under the prefix breaks
the round trip as universally stated — `path.join` keeps the trailing
separator but `path.relative` resolves it away, so the reconstructed key
lacks the trailing `/`. -/
theorem claim_C6_counterexample :
    jsEndsWithSlash "moltbot/dir/" = true
    ∧ getS3Key ⟨"bkt", "moltbot/", "/tmp/moltbot-state"⟩
        (getLocalPath ⟨"bkt", "moltbot/", "/tmp/moltbot-state"⟩ "moltbot/dir/")
      = "moltbot/dir"
    ∧ ("moltbot/dir" : String) ≠ "moltbot/dir/" := by
  decide

end Moltbot
